import Mathlib

/-!
Verification of the nucleus runtime (github.com/Cooksey99/nucleus).

Shallow embedding of the request-handling core: the plugin registry and its
permission lattice, the in-memory RAG vector store with cosine-similarity
search, the LanceDB store stubs, the CoreML provider's generation loop,
fallback tokenizer and causal mask, and the mistral.rs provider / IPC server
streaming contract.

Rust `f32` values appearing only as oracle outputs or compared data are
modelled as `ℚ` (every finite `f32` is rational); `f32` arithmetic inside
cosine similarity (sums, products, square roots, division) is modelled as
exact real arithmetic over `ℝ`.  The causal mask, whose entries are only ever
`0.0` or `f32::NEG_INFINITY`, is modelled by a dedicated two-branch type.
-/

namespace Nucleus

/-! ## Permission lattice and plugin registry (`nucleus-plugin`) -/

/-- Modelled from the spec: the `Permission` type of the `nucleus-plugin`
crate.  The crate's `lib.rs` defining `Permission` is absent from the
sources; only `registry.rs` and callers remain, which use the constants
`Permission::NONE`, `Permission::READ_ONLY`, `Permission::READ_WRITE` and
`Permission::ALL`.  The spec describes it as a small lattice with
`NONE ⊑ READ_ONLY ⊑ READ_WRITE ⊑ ALL`. -/
inductive Permission where
  | NONE
  | READ_ONLY
  | READ_WRITE
  | ALL
deriving DecidableEq

/-- Height of a permission in the four-point chain. -/
def Permission.level : Permission → Nat
  | .NONE => 0
  | .READ_ONLY => 1
  | .READ_WRITE => 2
  | .ALL => 3

/-- Modelled from the spec: `granted.allows(required)` iff
`required ⊑ granted` in the permission lattice. -/
def Permission.allows (granted required : Permission) : Bool :=
  required.level ≤ granted.level

/-- The part of the `Plugin` trait object that `PluginRegistry::register`
consults: its `name()` and its `required_permission()`. -/
structure Plugin where
  name : String
  required_permission : Permission
deriving DecidableEq

/-- State of `PluginRegistry` (src/nucleus-plugin/src/registry.rs): a
`HashMap<String, plugin>` (modelled as an association list with
insert-replaces-existing-key semantics) plus the granted permissions. -/
structure PluginRegistry where
  plugins : List (String × Plugin)
  granted_permissions : Permission
deriving DecidableEq

/-- Model of `HashMap::insert`: replaces the value stored at an existing key,
otherwise adds a new entry. -/
def mapInsert (m : List (String × Plugin)) (k : String) (v : Plugin) :
    List (String × Plugin) :=
  if m.any (fun p => p.1 = k) then
    m.map (fun p => if p.1 = k then (k, v) else p)
  else
    m ++ [(k, v)]

/-- Model of `PluginRegistry::new`. -/
def PluginRegistry.new (granted_permissions : Permission) : PluginRegistry :=
  ⟨[], granted_permissions⟩

/-- Model of `PluginRegistry::register` (registry.rs lines 30-44): returns `false`
without touching the map when the granted permissions do not allow the
plugin's required permission, otherwise inserts under the plugin's name
(replacing any plugin already registered under that name) and returns
`true`.  The returned pair is (new registry state, returned bool). -/
def PluginRegistry.register (reg : PluginRegistry) (plugin : Plugin) :
    PluginRegistry × Bool :=
  let required := plugin.required_permission
  if !(reg.granted_permissions.allows required) then
    (reg, false)
  else
    ({ reg with plugins := mapInsert reg.plugins plugin.name plugin }, true)

/-- Model of `PluginRegistry::get_count`. -/
def PluginRegistry.get_count (reg : PluginRegistry) : Nat :=
  reg.plugins.length

/-- Model of `PluginRegistry::get`. -/
def PluginRegistry.get (reg : PluginRegistry) (name : String) : Option Plugin :=
  (reg.plugins.find? (fun p => p.1 = name)).map (fun p => p.2)

/-! ## Fallback tokenizer (`coreml/provider.rs`) -/

/-- A Rust `char` is a Unicode scalar value: below `0x110000` and outside
the surrogate range `0xD800..0xE000`.  Rust strings are modelled as lists
of such code points. -/
def isScalarValue (n : Nat) : Prop :=
  n < 0x110000 ∧ ¬(0xD800 ≤ n ∧ n < 0xE000)

instance (n : Nat) : Decidable (isScalarValue n) := by
  unfold isScalarValue; infer_instance

/-- Model of `char::from_u32`: `Some` exactly on Unicode scalar values. -/
def char_from_u32 (id : Nat) : Option Nat :=
  if isScalarValue id then some id else none

/-- Model of `simple_encode` (coreml/provider.rs lines 87-89): each character maps to
its code point clamped to `127999`. -/
def simple_encode (text : List Nat) : List Nat :=
  text.map (fun c => min c 127999)

/-- Model of `simple_decode` (coreml/provider.rs lines 92-103): keep ids below
`128000`, convert back via `char::from_u32`, dropping invalid ones. -/
def simple_decode (tokens : List Nat) : List Nat :=
  tokens.filterMap (fun id => if id < 128000 then char_from_u32 id else none)

/-! ## RAG data model and in-memory vector store (`nucleus-core/src/rag/store.rs`)

Vector components are `f32` in the source; the arithmetic inside
`cosine_similarity` is modelled as exact real arithmetic. -/

/-- Model of `Document` (rag/types.rs, as used by store.rs and lancedb_store.rs):
stable textual id, original content, embedding vector, string metadata. -/
structure Document where
  id : String
  content : String
  embedding : List ℝ
  metadata : List (String × String)

/-- Model of `SearchResult`: a document together with its similarity score. -/
structure SearchResult where
  document : Document
  score : ℝ

/-- State of the in-memory `VectorStore` (store.rs lines 35-39): the vector
of documents guarded by the `RwLock`.  The optional persistence path plays
no role in `add`, `search`, `count` or `clear` and is omitted. -/
structure VectorStore where
  documents : List Document

/-- Model of `VectorStore::new`. -/
def VectorStore.new : VectorStore := ⟨[]⟩

/-- Model of `VectorStore::add` (store.rs lines 110-113): pushes the document onto
the vector.  The source comments: no deduplication is performed, adding the
same document multiple times creates duplicates. -/
def VectorStore.add (s : VectorStore) (document : Document) : VectorStore :=
  ⟨s.documents ++ [document]⟩

/-- Model of `VectorStore::count`. -/
def VectorStore.count (s : VectorStore) : Nat := s.documents.length

/-- Model of `VectorStore::clear`. -/
def VectorStore.clear (_s : VectorStore) : VectorStore := ⟨[]⟩

/-- Model of `cosine_similarity` (store.rs lines 168-182): `0.0` on length mismatch;
dot product over the zipped vectors; magnitudes as square roots of sums of
squares; `0.0` when either magnitude is zero; otherwise the quotient.
The `f32` arithmetic is modelled as exact real arithmetic: rounding and
underflow are deliberately not modelled, so exact-value claims that hold or
fail only because of rounding or underflow are outside this model; it is
used here for score ordering. -/
noncomputable def cosine_similarity (a b : List ℝ) : ℝ :=
  if a.length ≠ b.length then 0
  else
    let dot_product : ℝ := ((a.zip b).map (fun p => p.1 * p.2)).sum
    let magnitude_a : ℝ := Real.sqrt ((a.map (fun x => x * x)).sum)
    let magnitude_b : ℝ := Real.sqrt ((b.map (fun x => x * x)).sum)
    if magnitude_a = 0 ∨ magnitude_b = 0 then 0
    else dot_product / (magnitude_a * magnitude_b)

/-- The comparator passed to `sort_by` in `VectorStore::search`:
`b.score.partial_cmp(&a.score)` orders results by descending score.
`x` may precede `y` exactly when `y.score ≤ x.score`. -/
def scoreDescending (x y : SearchResult) : Prop := y.score ≤ x.score

noncomputable instance : DecidableRel scoreDescending :=
  fun x y => Real.decidableLE y.score x.score

instance : IsTotal SearchResult scoreDescending :=
  ⟨fun x y => (le_total y.score x.score).imp id id⟩

instance : IsTrans SearchResult scoreDescending :=
  ⟨fun _ _ _ h1 h2 => le_trans h2 h1⟩

/-- Model of `VectorStore::search` (store.rs lines 136-153): score every document
against the query with `cosine_similarity`, sort by descending score
(`sort_by` is a stable sort; `List.insertionSort` with a non-strict
relation is its stable counterpart), and keep the first `top_k`. -/
noncomputable def VectorStore.search (s : VectorStore) (query_embedding : List ℝ)
    (top_k : Nat) : List SearchResult :=
  let results := s.documents.map
    (fun doc => SearchResult.mk doc (cosine_similarity query_embedding doc.embedding))
  (List.insertionSort scoreDescending results).take top_k

/-! ## LanceDB store stubs (`nucleus-core/src/rag/lancedb_store.rs`)

The `&self` receiver is unused by these methods: they fail unconditionally
via `anyhow::bail!`. -/

/-- Outcome of a Rust call that may return `Ok`, return `Err`, or panic. -/
inductive ArrowOutcome (α : Type) where
  | ok : α → ArrowOutcome α
  | err : String → ArrowOutcome α
  | panicked : String → ArrowOutcome α

/-- Model of `LanceDbStore::add` (lancedb_store.rs lines 33-71), acting on
the table contents; the embedding values are opaque to `add`, only the
embedding length matters.  `FixedSizeListArray::new` with the configured
`vector_size` panics (an unwrapped `try_new` error) when the values length
is not a multiple of `vector_size`, and otherwise builds a vector column of
`embedding.len() / vector_size` entries; `RecordBatch::try_new` then fails
unless every column has the same length `1` (the id, content and source
arrays are one-element arrays); only a successfully built batch is appended
to the table by `table.add` (no upsert: existing rows, including rows with
the same id, are kept). -/
def LanceDbStore.add (vector_size : Nat) (table : List Document)
    (document : Document) : ArrowOutcome (List Document) :=
  if document.embedding.length % vector_size ≠ 0 then
    .panicked "FixedSizeListArray values length is not a multiple of the list size"
  else if document.embedding.length / vector_size ≠ 1 then
    .err "Failed to create record batch"
  else
    .ok (table ++ [document])

/-- Model of `LanceDbStore::remove_by_source` (lancedb_store.rs lines 151-153). -/
def LanceDbStore.remove_by_source (_source_path : String) : Except String Nat :=
  .error "LanceDB remove_by_source not yet fully implemented"

/-- Model of `LanceDbStore::get_indexed_paths` (lancedb_store.rs lines 147-149). -/
def LanceDbStore.get_indexed_paths : Except String (List String) :=
  .error "LanceDB get_indexed_paths not yet fully implemented"

/-! ## CoreML provider generation loop (`coreml/provider.rs`)

Logits are `f32` values produced by the opaque FFI call
`coreml_predict_stateful`; they are only compared, never operated on, so
they are modelled as `ℚ` (every finite `f32` is rational).  The FFI model
itself is an oracle parameter `predict` from the full running token
sequence (the loop passes the whole `input_ids` each step) to logits;
identical provider state means the same oracle.  The randomness inside
`sample_with_temperature` (a `SystemTime`-seeded draw) is modelled as an
oracle parameter `sampler`. -/

/-- Model of `argmax` (coreml/provider.rs lines 77-84): index of the maximum logit.
Rust's `max_by` keeps the last of equally-maximal elements: the fold
replaces the accumulator whenever its value is `≤` the new value, and an
empty slice yields `0` via `unwrap_or(0)`. -/
def argmax (logits : List ℚ) : Nat :=
  match logits.enum.foldl
    (fun acc p =>
      match acc with
      | none => some p
      | some q => if q.2 ≤ p.2 then some p else some q)
    none with
  | some p => p.1
  | none => 0

/-- One token selection inside `CoreMLProvider::chat` (provider.rs lines
553-557): softmax sampling when `request.temperature > 0.0`, greedy
`argmax` otherwise. -/
def selectToken (sampler : List ℚ → Nat) (temperature : ℚ) (logits : List ℚ) : Nat :=
  if 0 < temperature then sampler logits else argmax logits

/-- The token sequence generated by the loop of `CoreMLProvider::chat`
(provider.rs lines 548-591): for each of the remaining steps, run the
stateful prediction on the current `input_ids`, select the next token, stop
when it is `0` or outside the vocabulary, otherwise push it and continue.
`steps` is the remaining iteration budget (`max_tokens`, hard-coded `512`
at the call site). -/
def chatTokens (predict : List Nat → List ℚ) (vocab : Nat)
    (sampler : List ℚ → Nat) (temperature : ℚ) :
    List Nat → Nat → List Nat
  | _, 0 => []
  | input_ids, steps + 1 =>
    let logits := predict input_ids
    let next := selectToken sampler temperature logits
    if next = 0 ∨ vocab ≤ next then []
    else next :: chatTokens predict vocab sampler temperature (input_ids ++ [next]) steps

/-- The same loop with the `temperature == 0` branch inlined: every step
chooses the `argmax` of the logits. -/
def greedyTokens (predict : List Nat → List ℚ) (vocab : Nat) :
    List Nat → Nat → List Nat
  | _, 0 => []
  | input_ids, steps + 1 =>
    let logits := predict input_ids
    let next := argmax logits
    if next = 0 ∨ vocab ≤ next then []
    else next :: greedyTokens predict vocab (input_ids ++ [next]) steps

/-! ## Causal mask (`coreml/provider.rs` lines 106-116)

The mask entries are only ever the `f32` values `0.0` and
`f32::NEG_INFINITY`; `F32` models exactly the values the function writes. -/

/-- A partial model of `f32`: a finite (rational) value or negative
infinity. -/
inductive F32 where
  | val : ℚ → F32
  | negInf : F32
deriving DecidableEq

/-- Model of `create_causal_mask`: start from a `seq_len * seq_len` buffer filled
with `NEG_INFINITY`, then for each row `i` write `0.0` at the columns
`0..=i` (flat index `i * seq_len + j`). -/
def create_causal_mask (seq_len : Nat) : List F32 :=
  (List.range seq_len).foldl
    (fun mask i =>
      (List.range (i + 1)).foldl
        (fun m j => m.set (i * seq_len + j) (F32.val 0)) mask)
    (List.replicate (seq_len * seq_len) F32.negInf)

/-! ## mistral.rs provider streaming (`nucleus-core/src/provider/mistralrs.rs`)

JSON values are opaque to the streaming contract and modelled as their
serialized text.  The callback trace of a `chat` call is modelled as the
list of `ChatResponse` values passed to the callback, in order. -/

/-- Model of `ToolCallFunction` (provider/types, as constructed in mistralrs.rs). -/
structure ToolCallFunction where
  name : String
  arguments : String

/-- Model of `ToolCall` (provider/types). -/
structure ToolCall where
  function : ToolCallFunction

/-- Model of `Message` (provider/types, as constructed in mistralrs.rs lines
276-281): role, content, optional images and tool calls. -/
structure Message where
  role : String
  content : String
  images : Option (List String)
  tool_calls : Option (List ToolCall)

/-- Model of `ChatResponse` (provider/types, as constructed in mistralrs.rs lines
272-282): the streamed chunk. -/
structure ChatResponse where
  model : String
  content : String
  done : Bool
  message : Message

/-- A tool call as returned by the mistral.rs runtime. -/
structure MistralFunction where
  name : String
  arguments : String

/-- Wrapper matching `tc.function` in mistralrs.rs. -/
structure MistralToolCall where
  function : MistralFunction

/-- The message of one response choice of the mistral.rs runtime. -/
structure MistralMessage where
  content : Option String
  tool_calls : Option (List MistralToolCall)

/-- One response choice of the mistral.rs runtime. -/
structure MistralChoice where
  message : MistralMessage

/-- The response of `send_chat_request`. -/
structure MistralResponse where
  choices : List MistralChoice

/-- Model of `MistralRsProvider::chat` (mistralrs.rs lines 161-285), after the
request is handed to the runtime.  `outcome` is the result of the
timeout-wrapped `send_chat_request` (timeouts and runtime failures are
`Except.error`).  On success the first choice is required; its content
(defaulting to the empty string) and converted tool calls are sent through
the callback as a single chunk with `done = true`.  The result is the
emitted chunk trace. -/
def mistralrsChat (model_name : String) (outcome : Except String MistralResponse) :
    Except String (List ChatResponse) :=
  match outcome with
  | .error e => .error e
  | .ok response =>
    match response.choices.head? with
    | none => .error "No response choices"
    | some choice =>
      let content := choice.message.content.getD ""
      let tool_calls := choice.message.tool_calls.map
        (fun tcs => tcs.map
          (fun tc => ToolCall.mk (ToolCallFunction.mk tc.function.name tc.function.arguments)))
      .ok [ChatResponse.mk model_name content true
            (Message.mk "assistant" content none tool_calls)]

/-! ## IPC server chat handler (`src/core/src/server.rs`) -/

/-- Model of `StreamChunk` (server.rs lines 46-54). -/
structure StreamChunk where
  chunk_type : String
  content : String
  error : Option String
deriving DecidableEq

/-- Model of `StreamChunk::chunk`. -/
def StreamChunk.chunk (content : String) : StreamChunk := ⟨"chunk", content, none⟩

/-- Model of `StreamChunk::done`. -/
def StreamChunk.done (content : String) : StreamChunk := ⟨"done", content, none⟩

/-- Model of `StreamChunk::error` (named `errorChunk` here because `error` is the
field name). -/
def StreamChunk.errorChunk (e : String) : StreamChunk := ⟨"error", "", some e⟩

/-- Model of `Server::handle_chat` (server.rs lines 200-257), from the point where
the provider streams back.  `deltas` is the sequence of
`response.message.content` values the provider's callback delivers, and
`result` the final outcome of the provider call.  Each non-empty delta is
appended to `full_response` and written as a `chunk` line; afterwards a
single `done` line carrying the accumulated response (or a single `error`
line) is written.  The returned list is the wire trace. -/
def serverHandleChat (deltas : List String) (result : Except String Unit) :
    List StreamChunk :=
  let emitted := (deltas.filter (fun d => d ≠ "")).map StreamChunk.chunk
  let full_response := String.join (deltas.filter (fun d => d ≠ ""))
  match result with
  | .ok _ => emitted ++ [StreamChunk.done full_response]
  | .error e => emitted ++ [StreamChunk.errorChunk e]

/-! ## Theorems -/

/-- C2 (amended): `register` succeeds iff the granted permissions allow the
plugin's required permission — the name being in use does not prevent
registration (a duplicate name silently replaces the entry) — and whenever
`register` fails the registry is unchanged: same state, same `get` result
for the plugin's name, same count. -/
theorem register_spec (reg : PluginRegistry) (plugin : Plugin) :
    ((reg.register plugin).2 = true ↔ reg.granted_permissions.allows plugin.required_permission = true)
    ∧ ((reg.register plugin).2 = false →
        (reg.register plugin).1 = reg
        ∧ (reg.register plugin).1.get plugin.name = reg.get plugin.name
        ∧ (reg.register plugin).1.get_count = reg.get_count) := by
  unfold PluginRegistry.register
  by_cases h : reg.granted_permissions.allows plugin.required_permission = true
  · simp [h]
  · simp [h]

/-- C2 witness: spec scenario 6 — registry granted `READ_ONLY`, plugin
requiring `READ_WRITE`: registration returns `false` and the registry is
unchanged. -/
theorem register_spec_witness :
    ((PluginRegistry.new .READ_ONLY).register ⟨"write_file", .READ_WRITE⟩).1
      = PluginRegistry.new .READ_ONLY := by
  have h := register_spec (PluginRegistry.new .READ_ONLY) ⟨"write_file", .READ_WRITE⟩
  exact (h.2 (by decide)).1

/-- C2 counterexample: with granted `ALL`, a plugin named `write_file` is
already registered (`get` finds it), yet registering a second plugin with
the same name still returns `true` — refuting "register succeeds only if no
plugin with that name is already registered". -/
theorem register_duplicate_name_counterexample :
    (((PluginRegistry.new .ALL).register ⟨"write_file", .NONE⟩).1.get "write_file"
        = some ⟨"write_file", .NONE⟩)
    ∧ ((((PluginRegistry.new .ALL).register ⟨"write_file", .NONE⟩).1.register
          ⟨"write_file", .NONE⟩).2 = true) := by
  decide

/-- Success characterization of the `LanceDbStore::add` model: for a
positive configured dimension, the call returns `Ok` exactly when the
embedding length equals `vector_size`, and then it appends. -/
lemma lancedb_add_ok_iff (vs : Nat) (hvs : 0 < vs) (table : List Document)
    (d : Document) (t : List Document) :
    LanceDbStore.add vs table d = ArrowOutcome.ok t ↔
      (d.embedding.length = vs ∧ t = table ++ [d]) := by
  unfold LanceDbStore.add
  split_ifs with h1 h2
  · constructor
    · intro h; cases h
    · rintro ⟨hlen, _⟩
      exact absurd (by rw [hlen]; exact Nat.mod_self vs) h1
  · constructor
    · intro h; cases h
    · rintro ⟨hlen, _⟩
      exact absurd (by rw [hlen]; exact Nat.div_self hvs) h2
  · push_neg at h1 h2
    have hdm := Nat.div_add_mod d.embedding.length vs
    rw [h1, h2, Nat.mul_one, Nat.add_zero] at hdm
    constructor
    · intro h
      cases h
      exact ⟨hdm.symm, rfl⟩
    · rintro ⟨_, rfl⟩
      rfl

/-- C4 (amended): neither backend upserts by id — a record whose id already
exists is appended next to the old one, never replacing it.  The in-memory
`VectorStore::add` never fails and performs no dimension check, so that
store may hold duplicate ids and vectors of differing lengths.
`LanceDbStore::add` succeeds exactly when the embedding length equals the
store's configured dimension (otherwise the fixed-size-list construction
panics or the record batch fails and nothing is inserted), so every
document in a LanceDB table whose rows all had the configured dimension
still has it after any successful `add`. -/
theorem add_append_spec (s : VectorStore) (d : Document)
    (vs : Nat) (table : List Document) :
    ((s.add d).count = s.count + 1
      ∧ d ∈ (s.add d).documents
      ∧ ∀ d0 ∈ s.documents, d0 ∈ (s.add d).documents)
    ∧ (0 < vs →
        (LanceDbStore.add vs table d = ArrowOutcome.ok (table ++ [d])
          ↔ d.embedding.length = vs)
        ∧ (d.embedding.length ≠ vs →
            ∀ t, LanceDbStore.add vs table d ≠ ArrowOutcome.ok t))
    ∧ (0 < vs → (∀ d0 ∈ table, d0.embedding.length = vs) →
        ∀ t, LanceDbStore.add vs table d = ArrowOutcome.ok t →
        ∀ d0 ∈ t, d0.embedding.length = vs) := by
  refine ⟨⟨?_, ?_, ?_⟩, ?_, ?_⟩
  · simp [VectorStore.add, VectorStore.count]
  · simp [VectorStore.add]
  · intro d0 h0
    simp [VectorStore.add]
    exact Or.inl h0
  · intro hvs
    constructor
    · rw [lancedb_add_ok_iff vs hvs]
      exact ⟨fun h => h.1, fun h => ⟨h, rfl⟩⟩
    · intro hne t hok
      exact hne ((lancedb_add_ok_iff vs hvs table d t).mp hok).1
  · intro hvs hall t hok d0 hd0
    obtain ⟨hlen, rfl⟩ := (lancedb_add_ok_iff vs hvs table d t).mp hok
    rcases List.mem_append.mp hd0 with h | h
    · exact hall d0 h
    · rw [List.mem_singleton.mp h]
      exact hlen

/-- C4 witness: `add_append_spec` applied concretely — the in-memory store
accepts a document, a dimension-2 LanceDB table accepts a 2-component
vector (appending it), and rejects a 1-component vector. -/
theorem add_append_spec_witness :
    (VectorStore.new.add (Document.mk "a" "" [1] [])).count = 1
    ∧ LanceDbStore.add 2 [] (Document.mk "a" "" [1, 0] [])
        = ArrowOutcome.ok [Document.mk "a" "" [1, 0] []]
    ∧ LanceDbStore.add 2 [] (Document.mk "b" "" [1] [])
        ≠ ArrowOutcome.ok [Document.mk "b" "" [1] []] := by
  have h1 := add_append_spec VectorStore.new (Document.mk "a" "" [1] []) 2 []
  have h2 := add_append_spec VectorStore.new (Document.mk "a" "" [1, 0] []) 2 []
  have h3 := add_append_spec VectorStore.new (Document.mk "b" "" [1] []) 2 []
  exact ⟨h1.1.1, (h2.2.1 (by decide)).1.mpr (by decide),
    (h3.2.1 (by decide)).2 (by decide) [Document.mk "b" "" [1] []]⟩

/-- C4 counterexample: in the in-memory store, adding a document whose id
`"a"` already exists creates a duplicate instead of replacing (count 2,
both records keep id `"a"`), and a store holding a 2-component vector
accepts a 1-component one — refuting the upsert-by-id clause and, for this
backend, the dimension-check clause. -/
theorem add_upsert_counterexample :
    ((VectorStore.new.add (Document.mk "a" "" [1, 0] [])).add
        (Document.mk "a" "" [1, 0] [])).count = 2
    ∧ (((VectorStore.new.add (Document.mk "a" "" [1, 0] [])).add
          (Document.mk "a" "" [1, 0] [])).documents.map (fun d => d.id)) = ["a", "a"]
    ∧ (((VectorStore.new.add (Document.mk "a" "" [1, 0] [])).add
          (Document.mk "b" "" [1] [])).documents.map (fun d => d.embedding.length)) = [2, 1] :=
  ⟨rfl, rfl, rfl⟩

/-- C6: with `temperature == 0` the generation loop of
`CoreMLProvider::chat` is deterministic greedy sampling: the produced token
sequence equals the pure `argmax` recursion (every step picks the argmax of
the logits) for every sampling oracle, and consequently two identical
requests against an identical provider state (the same `predict` oracle)
produce identical token sequences regardless of the sampler. -/
theorem temperature_zero_greedy :
    (∀ (predict : List Nat → List ℚ) (vocab : Nat) (sampler : List ℚ → Nat)
        (input_ids : List Nat) (steps : Nat),
        chatTokens predict vocab sampler 0 input_ids steps
          = greedyTokens predict vocab input_ids steps)
    ∧ (∀ (predict : List Nat → List ℚ) (vocab : Nat)
        (s1 s2 : List ℚ → Nat) (input_ids : List Nat) (steps : Nat),
        chatTokens predict vocab s1 0 input_ids steps
          = chatTokens predict vocab s2 0 input_ids steps) := by
  have key : ∀ (predict : List Nat → List ℚ) (vocab : Nat) (sampler : List ℚ → Nat)
      (steps : Nat) (input_ids : List Nat),
      chatTokens predict vocab sampler 0 input_ids steps
        = greedyTokens predict vocab input_ids steps := by
    intro predict vocab sampler steps
    induction steps with
    | zero => intro input_ids; rfl
    | succ n ih =>
      intro input_ids
      simp only [chatTokens, greedyTokens, selectToken, lt_self_iff_false, if_false, ih]
  exact ⟨fun p v s ids n => key p v s n ids,
         fun p v s1 s2 ids n => (key p v s1 n ids).trans (key p v s2 n ids).symm⟩

/-- C7: re-indexing cannot be idempotent in the current code.
`LanceDbStore::remove_by_source` and `LanceDbStore::get_indexed_paths`
unconditionally fail ("not yet fully implemented"), and the in-memory
`VectorStore::add` appends without deduplication, so indexing the same
source twice stores every chunk id twice. -/
theorem reindex_not_idempotent :
    LanceDbStore.remove_by_source "/tmp/project/main.rs"
      = .error "LanceDB remove_by_source not yet fully implemented"
    ∧ LanceDbStore.get_indexed_paths
      = .error "LanceDB get_indexed_paths not yet fully implemented"
    ∧ ((VectorStore.new.add
          (Document.mk "/tmp/project/main.rs#0" "fn main" [1, 0]
            [("source", "/tmp/project/main.rs")])).add
          (Document.mk "/tmp/project/main.rs#0" "fn main" [1, 0]
            [("source", "/tmp/project/main.rs")])).documents.map (fun d => d.id)
      = ["/tmp/project/main.rs#0", "/tmp/project/main.rs#0"] :=
  ⟨rfl, rfl, rfl⟩

/-- C10: the fallback tokenizer round-trips on strings whose characters all
have code points at most `127999`, and every emitted token id is below
`128000`. -/
theorem simple_tokenizer_roundtrip (s : List Nat)
    (hscalar : ∀ c ∈ s, isScalarValue c) (hsmall : ∀ c ∈ s, c ≤ 127999) :
    simple_decode (simple_encode s) = s ∧ ∀ t ∈ simple_encode s, t < 128000 := by
  constructor
  · induction s with
    | nil => rfl
    | cons c cs ih =>
      have hc : isScalarValue c := hscalar c (by simp)
      have hcc : c ≤ 127999 := hsmall c (by simp)
      have hrest := ih (fun x hx => hscalar x (by simp [hx]))
        (fun x hx => hsmall x (by simp [hx]))
      simp only [simple_encode, simple_decode, List.map_cons, List.filterMap_cons] at hrest ⊢
      rw [min_eq_left hcc, if_pos (by omega : c < 128000)]
      unfold char_from_u32
      rw [if_pos hc]
      simpa [simple_encode, simple_decode] using hrest
  · intro t ht
    simp only [simple_encode, List.mem_map] at ht
    obtain ⟨c, _, rfl⟩ := ht
    have := min_le_right c 127999
    omega

/-- C10 witness: the round trip on the concrete string "hi"
(code points 104, 105). -/
theorem simple_tokenizer_roundtrip_witness :
    simple_decode (simple_encode [104, 105]) = [104, 105]
    ∧ ∀ t ∈ simple_encode [104, 105], t < 128000 :=
  simple_tokenizer_roundtrip [104, 105] (by decide) (by decide)


/-- C3 (amended): `search` returns at most `min k count` results sorted by
descending score — with equal scores kept in document insertion order
(`sort_by` is stable), not reordered by id — and searching the empty store
returns the empty list (search is total: it never returns an error). -/
theorem search_spec (s : VectorStore) (q : List ℝ) (k : Nat) :
    (s.search q k).length ≤ min k s.count
    ∧ List.Sorted scoreDescending (s.search q k)
    ∧ VectorStore.new.search q k = [] := by
  refine ⟨?_, ?_, ?_⟩
  · have h1 : (s.search q k).length = min k s.count := by
      unfold VectorStore.search VectorStore.count
      rw [List.length_take, (List.perm_insertionSort scoreDescending _).length_eq,
        List.length_map]
    exact le_of_eq h1
  · unfold VectorStore.search
    exact List.Pairwise.sublist (List.take_sublist _ _)
      (List.sorted_insertionSort scoreDescending _)
  · simp [VectorStore.search, VectorStore.new]

/-- Concrete cosine value used by the search counterexample. -/
lemma cosine_unit_pair : cosine_similarity [(1 : ℝ), 0] [1, 0] = 1 := by
  norm_num [cosine_similarity, List.zip, Real.sqrt_one]

/-- C3 counterexample: two documents with identical embeddings `[1,0]`,
inserted under ids `"b"` then `"a"`, both score `1` against the query
`[1,0]`; `search` returns them in insertion order `["b", "a"]`, which is not
ascending by id — refuting the "ties broken by id ascending" clause. -/
theorem search_tie_order_counterexample :
    (((VectorStore.new.add (Document.mk "b" "" [1, 0] [])).add
        (Document.mk "a" "" [1, 0] [])).search [1, 0] 2).map (fun r => r.document.id)
      = ["b", "a"]
    ∧ (((VectorStore.new.add (Document.mk "b" "" [1, 0] [])).add
        (Document.mk "a" "" [1, 0] [])).search [1, 0] 2).map (fun r => r.score)
      = [1, 1]
    ∧ (((VectorStore.new.add (Document.mk "b" "" [1, 0] [])).add
          (Document.mk "a" "" [1, 0] [])).search [1, 0] 2).map (fun r => r.document.id)
      ≠ ["a", "b"] := by
  have hsearch : ((VectorStore.new.add (Document.mk "b" "" [1, 0] [])).add
        (Document.mk "a" "" [1, 0] [])).search [1, 0] 2
      = [SearchResult.mk (Document.mk "b" "" [1, 0] []) 1,
         SearchResult.mk (Document.mk "a" "" [1, 0] []) 1] := by
    unfold VectorStore.search
    have hdocs : ((VectorStore.new.add (Document.mk "b" "" [1, 0] [])).add
        (Document.mk "a" "" [1, 0] [])).documents
        = [Document.mk "b" "" [1, 0] [], Document.mk "a" "" [1, 0] []] := rfl
    rw [hdocs]
    simp only [List.map_cons, List.map_nil]
    rw [cosine_unit_pair]
    simp only [List.insertionSort, List.orderedInsert]
    rw [if_pos (show scoreDescending
      (SearchResult.mk (Document.mk "b" "" [1, 0] []) 1)
      (SearchResult.mk (Document.mk "a" "" [1, 0] []) 1) from le_refl 1)]
    rfl
  refine ⟨by rw [hsearch]; rfl, by rw [hsearch]; rfl, ?_⟩
  rw [hsearch]
  simp only [List.map_cons, List.map_nil]
  decide

/-- Writing one row segment of the mask preserves the buffer length. -/
lemma inner_set_length (base : Nat) (v : F32) : ∀ (m : Nat) (l : List F32),
    ((List.range m).foldl (fun acc j => acc.set (base + j) v) l).length = l.length := by
  intro m
  induction m with
  | zero => intro l; rfl
  | succ m ih =>
    intro l
    rw [List.range_succ, List.foldl_append, List.foldl_cons, List.foldl_nil,
      List.length_set, ih]

/-- Writing all rows of the mask preserves the buffer length. -/
lemma causal_fold_length (n : Nat) : ∀ (rows : Nat) (l : List F32),
    ((List.range rows).foldl
      (fun mask r => (List.range (r + 1)).foldl
        (fun m c => m.set (r * n + c) (F32.val 0)) mask) l).length = l.length := by
  intro rows
  induction rows with
  | zero => intro l; rfl
  | succ rows ih =>
    intro l
    rw [List.range_succ, List.foldl_append, List.foldl_cons, List.foldl_nil,
      inner_set_length, ih]

/-- Reading back a buffer after the inner loop wrote `v` at offsets
`base..base+m-1`. -/
lemma inner_set_get (base : Nat) (v : F32) : ∀ (m : Nat) (l : List F32) (k : Nat),
    ((List.range m).foldl (fun acc j => acc.set (base + j) v) l)[k]? =
      if base ≤ k ∧ k < base + m ∧ k < l.length then some v else l[k]? := by
  intro m
  induction m with
  | zero =>
    intro l k
    simp only [List.range_zero, List.foldl_nil]
    rw [if_neg (by omega)]
  | succ m ih =>
    intro l k
    rw [List.range_succ, List.foldl_append, List.foldl_cons, List.foldl_nil,
      List.getElem?_set, inner_set_length, ih]
    split_ifs <;>
      first
        | rfl
        | omega
        | (exact (List.getElem?_eq_none (by omega)).symm)

/-- Reading back the mask buffer after the first `rows` rows were written:
position `(i, j)` holds `0.0` exactly when row `i` was processed and
`j ≤ i`. -/
lemma causal_fold_get (n : Nat) : ∀ (rows : Nat) (l : List F32), l.length = n * n →
    ∀ i j, i < n → j < n →
    ((List.range rows).foldl
      (fun mask r => (List.range (r + 1)).foldl
        (fun m c => m.set (r * n + c) (F32.val 0)) mask) l)[i * n + j]? =
      if i < rows ∧ j ≤ i then some (F32.val 0) else l[i * n + j]? := by
  intro rows
  induction rows with
  | zero =>
    intro l _ i j _ _
    simp only [List.range_zero, List.foldl_nil]
    rw [if_neg (by omega)]
  | succ rows ih =>
    intro l hl i j hi hj
    rw [List.range_succ, List.foldl_append, List.foldl_cons, List.foldl_nil,
      inner_set_get, causal_fold_length, hl, ih l hl i j hi hj]
    rcases Nat.lt_trichotomy i rows with hir | hir | hir
    · have f1 : i * n + n ≤ rows * n := by
        have h := Nat.mul_le_mul (show i + 1 ≤ rows from hir) (le_refl n)
        rw [Nat.succ_mul] at h
        exact h
      split_ifs <;> first | rfl | omega
    · subst hir
      have f6 : i * n + n ≤ n * n := by
        have h := Nat.mul_le_mul (show i + 1 ≤ n from hi) (le_refl n)
        rw [Nat.succ_mul] at h
        exact h
      split_ifs <;> first | rfl | omega
    · have f2 : rows * n + n ≤ i * n := by
        have h := Nat.mul_le_mul (show rows + 1 ≤ i from hir) (le_refl n)
        rw [Nat.succ_mul] at h
        exact h
      split_ifs <;> first | rfl | omega

/-- C8: for every `seq_len`, `create_causal_mask` produces a
`seq_len * seq_len` buffer whose entry at row `i`, column `j` (flat index
`i * seq_len + j`) is `0.0` when `j ≤ i` and negative infinity when
`j > i`. -/
theorem create_causal_mask_spec (n i j : Nat) (hi : i < n) (hj : j < n) :
    (create_causal_mask n).length = n * n
    ∧ (create_causal_mask n)[i * n + j]? =
        some (if j ≤ i then F32.val 0 else F32.negInf) := by
  constructor
  · unfold create_causal_mask
    rw [causal_fold_length, List.length_replicate]
  · unfold create_causal_mask
    rw [causal_fold_get n n (List.replicate (n * n) F32.negInf)
      (List.length_replicate _ _) i j hi hj]
    by_cases h : j ≤ i
    · rw [if_pos ⟨hi, h⟩, if_pos h]
    · rw [if_neg (fun hc => h hc.2), if_neg h]
      have hb : i * n + j < n * n := by
        have hsm := Nat.mul_le_mul (show i + 1 ≤ n from hi) (le_refl n)
        rw [Nat.succ_mul] at hsm
        omega
      exact List.getElem?_replicate_of_lt hb

/-- C8 witness: `create_causal_mask_spec` evaluated on the 2 × 2 mask at
the under-diagonal entry (1,0) and the above-diagonal entry (0,1). -/
theorem create_causal_mask_spec_witness :
    (create_causal_mask 2).length = 2 * 2
    ∧ (create_causal_mask 2)[1 * 2 + 0]? = some (if 0 ≤ 1 then F32.val 0 else F32.negInf)
    ∧ (create_causal_mask 2)[0 * 2 + 1]? = some (if 1 ≤ 0 then F32.val 0 else F32.negInf) :=
  ⟨(create_causal_mask_spec 2 1 0 (by decide) (by decide)).1,
   (create_causal_mask_spec 2 1 0 (by decide) (by decide)).2,
   (create_causal_mask_spec 2 0 1 (by decide) (by decide)).2⟩

/-- C1: the streaming chat contract.  For `MistralRsProvider::chat`: every
successful call emits exactly one terminal chunk (`done = true`), no
non-terminal chunks, and the concatenation of all chunk contents equals the
canonical assistant reply (the runtime choice's message content).  For
`Server::handle_chat` on a successful provider call: exactly one terminal
(`"done"`) line is written, it is the last line and carries the accumulated
reply (the concatenation of the streamed deltas), and every non-terminal
(`"chunk"`) line carries exactly one non-empty provider content delta. -/
theorem chat_stream_contract :
    (∀ (model_name : String) (resp : MistralResponse) (choice : MistralChoice)
        (chunks : List ChatResponse),
        resp.choices.head? = some choice →
        mistralrsChat model_name (.ok resp) = .ok chunks →
        (chunks.filter (fun c => c.done)).length = 1
        ∧ chunks.filter (fun c => !c.done) = []
        ∧ String.join (chunks.map (fun c => c.content)) = choice.message.content.getD "")
    ∧ (∀ (deltas : List String),
        ((serverHandleChat deltas (.ok ())).filter
            (fun c => c.chunk_type = "done")).length = 1
        ∧ (serverHandleChat deltas (.ok ())).getLast? =
            some (StreamChunk.done (String.join (deltas.filter (fun d => d ≠ ""))))
        ∧ ∀ c ∈ serverHandleChat deltas (.ok ()),
            c.chunk_type = "chunk" → c.content ∈ deltas ∧ c.content ≠ "") := by
  constructor
  · intro model_name resp choice chunks hhead hok
    simp only [mistralrsChat, hhead, Except.ok.injEq] at hok
    subst hok
    refine ⟨rfl, rfl, ?_⟩
    simp [String.join]
  · intro deltas
    refine ⟨?_, ?_, ?_⟩
    · unfold serverHandleChat
      simp only [List.filter_append, List.filter_map]
      simp [StreamChunk.chunk, StreamChunk.done, Function.comp]
    · unfold serverHandleChat
      simp only []
      exact List.getLast?_concat _
    · intro c hc htype
      unfold serverHandleChat at hc
      simp only [List.mem_append, List.mem_map, List.mem_singleton] at hc
      rcases hc with ⟨d, hd, rfl⟩ | rfl
      · have hdm := List.mem_filter.mp hd
        refine ⟨hdm.1, ?_⟩
        have := hdm.2
        simpa using this
      · simp [StreamChunk.done] at htype

/-- C1 witness: a successful mistral.rs call whose choice content is
`"Hello"`: the trace is one terminal chunk and the concatenation of chunk
contents is `"Hello"`. -/
theorem chat_stream_contract_witness :
    mistralrsChat "m"
        (.ok (MistralResponse.mk [MistralChoice.mk (MistralMessage.mk (some "Hello") none)]))
      = .ok [ChatResponse.mk "m" "Hello" true (Message.mk "assistant" "Hello" none none)]
    ∧ ([ChatResponse.mk "m" "Hello" true
          (Message.mk "assistant" "Hello" none none)].filter (fun c => c.done)).length = 1
    ∧ String.join ([ChatResponse.mk "m" "Hello" true
          (Message.mk "assistant" "Hello" none none)].map (fun c => c.content)) = "Hello" := by
  have h := chat_stream_contract.1 "m"
    (MistralResponse.mk [MistralChoice.mk (MistralMessage.mk (some "Hello") none)])
    (MistralChoice.mk (MistralMessage.mk (some "Hello") none))
    [ChatResponse.mk "m" "Hello" true (Message.mk "assistant" "Hello" none none)]
    rfl rfl
  exact ⟨rfl, h.1, h.2.2⟩

end Nucleus
